import Mathlib

/-!
Verification development for an IMAP mail-fetching program consisting of
three components: OAuth2 token refresh (token_utils.py), an IMAP session
(imap_client.py) and a MIME message decoder (email_parser.py).

Python values are embedded as follows: Python `str` values that carry
arbitrary Unicode text become `PyStr` (lists of Unicode code points),
`bytes` become `Bytes` (lists of naturals below 256), `None`-able values
become `Option`, raised exceptions become `Except` errors or explicit
result constructors, and environment / network effects become explicit
function arguments describing the outcome of each external call.
-/

/-- Python str: a sequence of Unicode code points. -/
abbrev PyStr := List Nat

/-- Python bytes: a sequence of byte values. -/
abbrev Bytes := List Nat

/-- Code points of a Lean string literal, for readable concrete values. -/
def pyS (s : String) : PyStr := s.toList.map Char.toNat

/-! ## token_utils.py -/

/-- Truthiness of a Python string: empty strings are falsy. -/
def strTruthy (s : String) : Bool := s ≠ ""

/-- Truthiness of an optional Python string (None and "" are falsy). -/
def optTruthy : Option String → Bool
  | none => false
  | some s => strTruthy s

/-- Environment variables read by the refresh helpers (os.getenv results). -/
structure TokenEnv where
  gmailClientId : Option String
  gmailClientSecret : Option String
  outlookClientId : Option String

/-- Outcome of the requests.post call to the token endpoint: either the
transport raises requests.RequestException, or a response arrives with a
status code and a JSON body from which only the access_token and
refresh_token fields are consulted (body.get results). -/
inductive HttpOutcome where
  | transportError
  | response (status : Nat) (accessToken : Option String) (refreshTokenField : Option String)

/-- Result seen by the caller of a refresh helper: either an exception
(RuntimeError) propagates, or the function returns normally with an
optional access token. -/
inductive RefreshResult where
  | raised (msg : String)
  | returned (tok : Option String)
deriving DecidableEq

/-- Whether the refresh call ended in a raised exception. -/
def RefreshResult.isRaised : RefreshResult → Bool
  | .raised _ => true
  | .returned _ => false

/-- Embedding of token_utils.refresh_gmail_access_token.  Besides the
result, it returns the list of values passed to the rotation/persistence
routine _update_env_file for GMAIL_REFRESH_TOKEN (one entry per call).
Source: `if not refresh_token: return None`; missing client id/secret
raises RuntimeError; on transport error or non-200 status it prints and
returns None; on 200 it reads access_token and refresh_token from the
body and persists the latter only `if new_refresh and new_refresh !=
refresh_token`. -/
def refresh_gmail_access_token (env : TokenEnv) (refresh_token : String)
    (http : HttpOutcome) : RefreshResult × List String :=
  if ¬ strTruthy refresh_token then (.returned none, [])
  else if ¬ (optTruthy env.gmailClientId ∧ optTruthy env.gmailClientSecret) then
    (.raised "GMAIL_CLIENT_ID and GMAIL_CLIENT_SECRET must be set", [])
  else
    match http with
    | .transportError => (.returned none, [])
    | .response status accessTok newRefresh =>
      if status = 200 then
        let rotations :=
          match newRefresh with
          | some nr => if strTruthy nr ∧ nr ≠ refresh_token then [nr] else []
          | none => []
        (.returned accessTok, rotations)
      else (.returned none, [])

/-- Embedding of token_utils.refresh_outlook_access_token, analogous to
the Gmail helper; only OUTLOOK_CLIENT_ID is required (the tenant id
defaults to "common"), and rotation persists OUTLOOK_REFRESH_TOKEN. -/
def refresh_outlook_access_token (env : TokenEnv) (refresh_token : String)
    (http : HttpOutcome) : RefreshResult × List String :=
  if ¬ strTruthy refresh_token then (.returned none, [])
  else if ¬ optTruthy env.outlookClientId then
    (.raised "OUTLOOK_CLIENT_ID must be set in .env", [])
  else
    match http with
    | .transportError => (.returned none, [])
    | .response status accessTok newRefresh =>
      if status = 200 then
        let rotations :=
          match newRefresh with
          | some nr => if strTruthy nr ∧ nr ≠ refresh_token then [nr] else []
          | none => []
        (.returned accessTok, rotations)
      else (.returned none, [])

/-! ## imap_client.py -/

/-- Python slice `xs[-n:]` on a list: for n = 0 this is `xs[0:]`, the whole
list; for n > 0 it is the last `min n (length xs)` elements. -/
def pySliceLastN (xs : List Nat) (n : Nat) : List Nat :=
  if n = 0 then xs else xs.drop (xs.length - n)

/-- The trailing n elements of a listing, as the specification words it:
the last `min n (length xs)` elements, so the empty set when n = 0. -/
def specTrailing (xs : List Nat) (n : Nat) : List Nat :=
  xs.drop (xs.length - n)

/-- Observable behavior of one _fetch_latest_sync call: the id sets of the
FETCH commands issued (one entry per command), and either a raised
exception or the returned list of raw messages. -/
structure FetchTrace where
  fetchedIds : List (List Nat)
  result : Except String (List Bytes)

/-- Embedding of AsyncIMAPClient._fetch_latest_sync.  The connection is
assumed established (auto-connect is lifecycle plumbing); the server is
described by the outcome of the SEARCH command (status plus the listing of
message sequence numbers) and of the FETCH command (status plus response
parts, where each `some` entry is a tuple part carrying raw bytes and
`none` is a non-tuple or payload-less part).  Source: a non-OK search
raises; an empty listing returns [] before any FETCH; otherwise the ids
are sliced `ids[-limit:]` and one batched FETCH is issued for them; a
non-OK fetch raises; tuple parts with non-None payload are collected. -/
def fetch_latest_sync (limit : Nat) (searchOK : Bool) (listing : List Nat)
    (fetchOK : Bool) (fetchParts : List (Option Bytes)) : FetchTrace :=
  if ¬ searchOK then ⟨[], .error "IMAP search failed"⟩
  else if listing = [] then ⟨[], .ok []⟩
  else
    let ids := pySliceLastN listing limit
    if ¬ fetchOK then ⟨[ids], .error "IMAP fetch failed"⟩
    else ⟨[ids], .ok (fetchParts.filterMap id)⟩

/-- Embedding of AsyncIMAPClient._logout_sync (the body of close()).
State is the _imap field (`some` handle when a connection is open).  The
argument says whether the IMAP LOGOUT command raises.  Result: the new
_imap field, whether an exception propagates to the caller, and how many
LOGOUT commands were issued.  Source: `if self._imap is not None: try:
self._imap.logout() finally: self._imap = None` — the finally clause
clears the field on every exit path and re-raises any logout failure. -/
def logout_sync (st : Option Nat) (logoutRaises : Bool) : Option Nat × Bool × Nat :=
  match st with
  | none => (none, false, 0)
  | some _ => (none, logoutRaises, 1)

/-! ## email_parser.py: text codecs

Models of the Python codecs the development needs.  bytes.decode(cs,
errors="ignore") drops undecodable byte sequences but raises LookupError
when the codec name cs itself is not registered. -/

/-- Whether a byte is a UTF-8 continuation byte (0x80..0xBF). -/
def isCont (b : Nat) : Bool := 0x80 ≤ b ∧ b < 0xC0

/-- One step of UTF-8 decoding: from the front of the byte list, either a
decoded code point or an invalid sequence, together with the number of
bytes consumed (always at least 1 on nonempty input).  Overlong forms,
surrogates and code points above 0x10FFFF are invalid, as in CPython. -/
def utf8Step : Bytes → Option Nat × Nat
  | [] => (none, 1)
  | b :: rest =>
    if b < 0x80 then (some b, 1)
    else if b < 0xC2 then (none, 1)
    else if b < 0xE0 then
      match rest with
      | b2 :: _ =>
        if isCont b2 then (some ((b - 0xC0) * 64 + (b2 - 0x80)), 2) else (none, 1)
      | [] => (none, 1)
    else if b < 0xF0 then
      match rest with
      | b2 :: b3 :: _ =>
        if isCont b2 ∧ isCont b3 then
          let cp := (b - 0xE0) * 4096 + (b2 - 0x80) * 64 + (b3 - 0x80)
          if cp < 0x800 ∨ (0xD800 ≤ cp ∧ cp < 0xE000) then (none, 1) else (some cp, 3)
        else (none, 1)
      | _ => (none, 1)
    else if b < 0xF5 then
      match rest with
      | b2 :: b3 :: b4 :: _ =>
        if isCont b2 ∧ isCont b3 ∧ isCont b4 then
          let cp := (b - 0xF0) * 262144 + (b2 - 0x80) * 4096 + (b3 - 0x80) * 64 + (b4 - 0x80)
          if cp < 0x10000 ∨ 0x10FFFF < cp then (none, 1) else (some cp, 4)
        else (none, 1)
      | _ => (none, 1)
    else (none, 1)

/-- Fuelled UTF-8 decoding loop; each step consumes at least one byte, so
fuel equal to the input length suffices. -/
def utf8DecodeLoop : Nat → Bytes → PyStr
  | 0, _ => []
  | fuel + 1, l =>
    if l = [] then []
    else
      match utf8Step l with
      | (some c, k) => c :: utf8DecodeLoop fuel (l.drop (max k 1))
      | (none, k) => utf8DecodeLoop fuel (l.drop (max k 1))

/-- Model of bytes.decode("utf-8", errors="ignore"): decode greedily,
dropping invalid sequences. -/
def utf8DecodeIgnore (l : Bytes) : PyStr := utf8DecodeLoop l.length l

/-- UTF-8 encoding of one code point (assumed a valid scalar value). -/
def utf8EncodeChar (c : Nat) : Bytes :=
  if c < 0x80 then [c]
  else if c < 0x800 then [0xC0 + c / 64, 0x80 + c % 64]
  else if c < 0x10000 then [0xE0 + c / 4096, 0x80 + c / 64 % 64, 0x80 + c % 64]
  else [0xF0 + c / 262144, 0x80 + c / 4096 % 64, 0x80 + c / 64 % 64, 0x80 + c % 64]

/-- Model of str.encode("utf-8"). -/
def utf8Encode (s : PyStr) : Bytes := (s.map utf8EncodeChar).flatten

/-- A Unicode scalar value: representable in UTF-8 by the Python codec. -/
def ValidScalar (c : Nat) : Prop := c ≤ 0x10FFFF ∧ ¬ (0xD800 ≤ c ∧ c < 0xE000)

instance (c : Nat) : Decidable (ValidScalar c) := by unfold ValidScalar; infer_instance

/-- Model of bytes.decode("iso-8859-1"): every byte maps to the code point
of the same value; never fails. -/
def latin1Decode (l : Bytes) : PyStr := l

/-- Model of str.encode("iso-8859-1") on strings whose code points are all
below 256. -/
def latin1Encode (s : PyStr) : Bytes := s

/-! ## email_parser.py: base64 and RFC 2047 encoded words -/

/-- Character of the standard base64 alphabet for a 6-bit value. -/
def b64Char (n : Nat) : Nat :=
  if n < 26 then 65 + n
  else if n < 52 then 97 + (n - 26)
  else if n < 62 then 48 + (n - 52)
  else if n = 62 then 43
  else 47

/-- Inverse lookup into the base64 alphabet. -/
def b64Index (c : Nat) : Option Nat :=
  if 65 ≤ c ∧ c ≤ 90 then some (c - 65)
  else if 97 ≤ c ∧ c ≤ 122 then some (26 + (c - 97))
  else if 48 ≤ c ∧ c ≤ 57 then some (52 + (c - 48))
  else if c = 43 then some 62
  else if c = 47 then some 63
  else none

/-- Model of base64.b64encode: standard base64 with "=" padding (61 is the
code point of the padding character). -/
def b64encodeBytes : Bytes → PyStr
  | b1 :: b2 :: b3 :: rest =>
    b64Char (b1 / 4) :: b64Char (b1 % 4 * 16 + b2 / 16) ::
      b64Char (b2 % 16 * 4 + b3 / 64) :: b64Char (b3 % 64) :: b64encodeBytes rest
  | [b1, b2] => [b64Char (b1 / 4), b64Char (b1 % 4 * 16 + b2 / 16), b64Char (b2 % 16 * 4), 61]
  | [b1] => [b64Char (b1 / 4), b64Char (b1 % 4 * 16), 61, 61]
  | [] => []

/-- Model of base64 decoding on well-formed base64 text (what
email.header.decode_header applies to the payload of a B-encoded word);
ill-formed input decodes to [] here, a case no theorem relies on. -/
def b64decodeStr : PyStr → Bytes
  | c1 :: c2 :: c3 :: c4 :: rest =>
    match b64Index c1, b64Index c2 with
    | some n1, some n2 =>
      if c3 = 61 then [n1 * 4 + n2 / 16]
      else
        match b64Index c3 with
        | some n3 =>
          if c4 = 61 then [n1 * 4 + n2 / 16, n2 % 16 * 16 + n3 / 4]
          else
            match b64Index c4 with
            | some n4 =>
              (n1 * 4 + n2 / 16) :: (n2 % 16 * 16 + n3 / 4) :: (n3 % 4 * 64 + n4) ::
                b64decodeStr rest
            | none => []
        | none => []
    | _, _ => []
  | _ => []

/-- Split a code-point string at every question mark (code point 63), the
separator of RFC 2047 encoded words. -/
def splitQ : PyStr → List PyStr
  | [] => [[]]
  | c :: rest =>
    if c = 63 then [] :: splitQ rest
    else
      match splitQ rest with
      | h :: t => (c :: h) :: t
      | [] => [[c]]

/-- One segment of an email.header.decode_header result: either an
unencoded str segment (charset None) or decoded bytes with the declared
charset of the encoded word they came from. -/
inductive HeaderSeg where
  | txt (s : PyStr)
  | enc (bs : Bytes) (charset : Option PyStr)

/-- Model of email.header.decode_header, restricted to values that are
either exactly one RFC 2047 B-encoded word `=?charset?b?payload?=` (no
other question mark in the value) or contain no encoded word at all and
come back unchanged as a single str segment.  decode_header base64-decodes
the payload without consulting the charset. -/
def decode_header (s : PyStr) : List HeaderSeg :=
  match splitQ s with
  | [[61], cs, e, payload, [61]] =>
    if e = pyS "b" ∨ e = pyS "B" then [.enc (b64decodeStr payload) (some cs)]
    else [.txt s]
  | _ => [.txt s]

/-- Codec registry consulted by bytes.decode: the codecs this development
exercises.  Any name outside the registry fails lookup, as CPython does
for unregistered names such as "x-unknown". -/
def bytesDecodeIgnore (cs : PyStr) (bs : Bytes) : Option PyStr :=
  if cs = pyS "utf-8" then some (utf8DecodeIgnore bs)
  else if cs = pyS "iso-8859-1" ∨ cs = pyS "latin-1" then some (latin1Decode bs)
  else if cs = pyS "us-ascii" ∨ cs = pyS "ascii" then some (utf8DecodeIgnore (bs.filter (· < 128)))
  else none

/-- Charset actually used by decode_mime: `charset or "utf-8"`, so None
and the empty string both fall back to UTF-8. -/
def charsetOrUTF8 : Option PyStr → PyStr
  | none => pyS "utf-8"
  | some c => if c = [] then pyS "utf-8" else c

/-- The `for text, charset in parts` loop of EmailParser.decode_mime over
the segments of a decode_header result, accumulating the decoded string:
bytes segments are decoded with `text.decode(charset or "utf-8",
errors="ignore")` — which raises LookupError (the .error case) when the
charset is not a registered codec — and str segments are appended as
they are. -/
def decodeSegs : List HeaderSeg → PyStr → Except Unit PyStr
  | [], acc => .ok acc
  | seg :: rest, acc =>
    match seg with
    | .txt t => decodeSegs rest (acc ++ t)
    | .enc bs cs =>
      match bytesDecodeIgnore (charsetOrUTF8 cs) bs with
      | some t => decodeSegs rest (acc ++ t)
      | none => .error ()

/-- Embedding of EmailParser.decode_mime.  Source: `if not value: return
""` (None and the empty string are falsy), then fold the decoding loop
over decode_header(value). -/
def decode_mime (value : Option PyStr) : Except Unit PyStr :=
  match value with
  | none => .ok []
  | some s => if s = [] then .ok [] else decodeSegs (decode_header s) []

/-! ## email_parser.py: message decoding -/

/-- One node of the parsed MIME tree in msg.walk() order (containers
included).  contentType is get_content_type(), disposition is
get_content_disposition() (None when the part has no
Content-Disposition), charset is the charset declared on the part (read
by no code path of parse, carried to state charset claims), filename is
get_filename() before encoded-word decoding, and payload is
get_payload(decode=True) — None for containers and payload-less parts,
otherwise the fully transfer-decoded bytes. -/
structure MimePart where
  contentType : String
  disposition : Option String
  charset : Option PyStr
  filename : Option PyStr
  payload : Option Bytes

/-- The parsed message as email.message_from_bytes exposes it to parse:
the four headers it reads (None when absent) and the walk() part list. -/
structure PyMessage where
  subject : Option PyStr
  fromH : Option PyStr
  toH : Option PyStr
  dateH : Option PyStr
  parts : List MimePart

/-- Python str(part.get_content_disposition()): "None" for None. -/
def dispStr (d : Option String) : String := d.getD "None"

/-- Python `"attachment" in disp`: substring containment. -/
def attachInDisp (disp : String) : Bool :=
  decide (pyS "attachment" <:+: pyS disp)

/-- Hundredths of a kilobyte recorded for an attachment of n bytes:
round(n / 1024, 2) in hundredths, with the half-to-even rounding of
Python round (n / 1024 is exactly representable as a float, so the float
detour of the source is exact). -/
def pyRound2c (n : Nat) : Nat :=
  let a := 100 * n
  let q := a / 1024
  let r := a % 1024
  if 512 < r ∨ (r = 512 ∧ q % 2 = 1) then q + 1 else q

/-- One recorded attachment: decoded filename, size_kb = round(bytes /
1024, 2), and the fully decoded content bytes. -/
structure Attachment where
  filename : PyStr
  size_kb : ℚ
  content : Bytes
deriving DecidableEq

/-- The dict returned by EmailParser.parse.  date is the raw value of
msg.get("Date"), which is None when the header is absent. -/
structure Parsed where
  subject : PyStr
  fromF : PyStr
  toF : PyStr
  date : Option PyStr
  text : PyStr
  html : PyStr
  attachments : List Attachment
deriving DecidableEq

/-- The body of the `for part in msg.walk()` loop of EmailParser.parse,
acting on the accumulated dict.  Source branches in order: text/plain
without "attachment" in the disposition string appends
payload.decode("utf-8", errors="ignore") (skipping None payloads);
likewise text/html; a part whose disposition string equals "attachment"
records an attachment whose filename is decode_mime(get_filename()) —
which raises LookupError for an unregistered charset — with content
`get_payload(decode=True) or b""`; every other part contributes
nothing. -/
def partStep (acc : Parsed) (part : MimePart) : Except Unit Parsed :=
  let disp := dispStr part.disposition
  if part.contentType = "text/plain" ∧ ¬ attachInDisp disp then
    match part.payload with
    | none => .ok acc
    | some bs => .ok { acc with text := acc.text ++ utf8DecodeIgnore bs }
  else if part.contentType = "text/html" ∧ ¬ attachInDisp disp then
    match part.payload with
    | none => .ok acc
    | some bs => .ok { acc with html := acc.html ++ utf8DecodeIgnore bs }
  else if disp = "attachment" then
    match decode_mime part.filename with
    | .error e => .error e
    | .ok fn =>
      let content := part.payload.getD []
      .ok { acc with attachments :=
        acc.attachments ++ [⟨fn, (pyRound2c content.length : ℚ) / 100, content⟩] }
  else .ok acc

/-- The `for part in msg.walk()` loop of EmailParser.parse: run partStep
over the parts in order, propagating an uncaught exception. -/
def walkParts : List MimePart → Parsed → Except Unit Parsed
  | [], acc => .ok acc
  | part :: rest, acc =>
    match partStep acc part with
    | .error e => .error e
    | .ok acc2 => walkParts rest acc2

/-- Embedding of EmailParser.parse on an already-tree-parsed message:
decode the subject, from and to headers with decode_mime, pass the date
header through unchanged, then fold the walk() loop over the parts.  An
uncaught LookupError from any decode_mime call is the .error case; the
header dict entries are evaluated in source order, so the first raising
header wins. -/
def parse (msg : PyMessage) : Except Unit Parsed :=
  match decode_mime msg.subject, decode_mime msg.fromH, decode_mime msg.toH with
  | .error e, _, _ => .error e
  | .ok _, .error e, _ => .error e
  | .ok _, .ok _, .error e => .error e
  | .ok subject, .ok fromV, .ok toV =>
    walkParts msg.parts
      { subject := subject, fromF := fromV, toF := toV, date := msg.dateH,
        text := [], html := [], attachments := [] }

/-- Modelled from the spec: no encoder exists in the repository, so the
round-trip claim needs the standard RFC 2047 B-encoded-word form it
describes — charset-encode the text, base64 it, and wrap it as
`=?charset?b?payload?=`. -/
def encodeWord (cs : PyStr) (encoded : Bytes) : PyStr :=
  pyS "=?" ++ cs ++ pyS "?b?" ++ b64encodeBytes encoded ++ pyS "?="

/-! ## Theorems: token refresh (C1, C2) -/

/-- C1 counterexample: the claim says a transport/network failure makes
the refresh operation fail with a raised typed error, but with client
credentials configured and the transport failing,
refresh_gmail_access_token returns the normal value None instead of
raising. -/
theorem C1_counterexample :
    (refresh_gmail_access_token ⟨some "id", some "secret", some "oid"⟩ "rt"
        HttpOutcome.transportError).1 = RefreshResult.returned none
    ∧ (refresh_gmail_access_token ⟨some "id", some "secret", some "oid"⟩ "rt"
        HttpOutcome.transportError).1.isRaised = false := by
  exact ⟨rfl, rfl⟩

/-- C1 amended: for a truthy refresh token, a refresh call raises exactly
when the client credential configuration is missing (RuntimeError); on
transport failure or a non-success HTTP status it returns None normally,
and on a 200 response it returns the access_token field of the body
(None when that field is missing) — never a raised failure. -/
theorem C1_amended (env : TokenEnv) (rt : String) (hrt : strTruthy rt = true)
    (http : HttpOutcome) :
    ((refresh_gmail_access_token env rt http).1.isRaised
        = !(optTruthy env.gmailClientId && optTruthy env.gmailClientSecret))
    ∧ ((refresh_outlook_access_token env rt http).1.isRaised
        = !optTruthy env.outlookClientId)
    ∧ ((optTruthy env.gmailClientId && optTruthy env.gmailClientSecret) = true →
        (refresh_gmail_access_token env rt http).1 =
          match http with
          | .transportError => .returned none
          | .response status tok _ =>
            if status = 200 then .returned tok else .returned none)
    ∧ (optTruthy env.outlookClientId = true →
        (refresh_outlook_access_token env rt http).1 =
          match http with
          | .transportError => .returned none
          | .response status tok _ =>
            if status = 200 then .returned tok else .returned none) := by
  cases hg : optTruthy env.gmailClientId <;>
    cases hs : optTruthy env.gmailClientSecret <;>
      cases ho : optTruthy env.outlookClientId <;>
        refine ⟨?_, ?_, ?_, ?_⟩ <;>
          cases http <;>
            simp_all [refresh_gmail_access_token, refresh_outlook_access_token,
              RefreshResult.isRaised] <;>
              split_ifs <;> simp_all [RefreshResult.isRaised]

/-- C1 witness for the amended theorem at concrete inputs. -/
theorem C1_witness :
    strTruthy "rt" = true
    ∧ (refresh_gmail_access_token ⟨some "i", some "s", some "o"⟩ "rt"
        (.response 401 none none)).1.isRaised
        = !(optTruthy (some "i") && optTruthy (some "s")) :=
  ⟨by decide, (C1_amended ⟨some "i", some "s", some "o"⟩ "rt" (by decide)
      (.response 401 none none)).1⟩

/-- C2 counterexample: the claim says any present refresh_token value
differing from the input is surfaced to the credential store, but a 200
response carrying the present, different value "" triggers no call of the
rotation routine: the code guard `if new_refresh and ...` drops falsy
values silently. -/
theorem C2_counterexample :
    (refresh_gmail_access_token ⟨some "id", some "sec", some "oid"⟩ "old"
        (HttpOutcome.response 200 (some "tok") (some ""))).2 = []
    ∧ (some "" : Option String) ≠ none ∧ "" ≠ "old" := by
  refine ⟨rfl, by simp, by simp⟩

/-- C2 amended: for a configured, truthy refresh call, the rotation
routine is called exactly once with the new value when a 200 response
carries a refresh_token that is non-empty and differs from the input;
when the carried value is absent, empty, or equal to the input — and on
any non-200 response or transport failure — no rotation is surfaced. -/
theorem C2_amended (env : TokenEnv) (rt : String) (status : Nat)
    (tok : Option String) (nr : Option String) (hrt : strTruthy rt = true)
    (hg : (optTruthy env.gmailClientId && optTruthy env.gmailClientSecret) = true)
    (ho : optTruthy env.outlookClientId = true) :
    ((refresh_gmail_access_token env rt (.response status tok nr)).2
      = if status = 200 then
          match nr with
          | some v => if v ≠ "" ∧ v ≠ rt then [v] else []
          | none => []
        else [])
    ∧ ((refresh_outlook_access_token env rt (.response status tok nr)).2
      = if status = 200 then
          match nr with
          | some v => if v ≠ "" ∧ v ≠ rt then [v] else []
          | none => []
        else [])
    ∧ (refresh_gmail_access_token env rt .transportError).2 = []
    ∧ (refresh_outlook_access_token env rt .transportError).2 = [] := by
  unfold refresh_gmail_access_token refresh_outlook_access_token
  simp only [hrt, not_true, Bool.not_eq_true]
  refine ⟨?_, ?_, ?_, ?_⟩ <;>
    simp_all [strTruthy] <;>
      cases nr <;> split_ifs <;> simp_all

/-- C2 witness for the amended theorem at concrete inputs. -/
theorem C2_witness :
    strTruthy "old" = true
    ∧ (refresh_gmail_access_token ⟨some "i", some "s", some "o"⟩ "old"
        (.response 200 (some "tok") (some "new"))).2
      = if 200 = 200 then
          match some "new" with
          | some v => if v ≠ "" ∧ v ≠ "old" then [v] else []
          | none => []
        else [] :=
  ⟨by decide, (C2_amended ⟨some "i", some "s", some "o"⟩ "old" 200 (some "tok")
      (some "new") (by decide) (by decide) (by decide)).1⟩

/-! ## Theorems: IMAP session (C3, C8, C10) -/

/-- C3 counterexample: the claim covers every limit n >= 0, but for the
nonempty listing [1, 2, 3] and limit 0 the single FETCH covers all three
sequence numbers (the Python slice ids[-0:] is the whole list), while the
trailing 0 of the listing is empty. -/
theorem C3_counterexample :
    (fetch_latest_sync 0 true [1, 2, 3] true []).fetchedIds = [[1, 2, 3]]
    ∧ specTrailing [1, 2, 3] 0 = [] := by
  exact ⟨rfl, rfl⟩

/-- C3 amended: for every limit n >= 1 and successful listing,
fetch_latest issues exactly one batched FETCH, for exactly the trailing n
sequence numbers of the listing (all of them when it has fewer than n);
an empty mailbox returns the empty list with no FETCH issued and no
error, for every n >= 0.  For n = 0 on a nonempty mailbox the single
FETCH instead covers the whole listing. -/
theorem C3_amended (n : Nat) (hn : 1 ≤ n) (listing : List Nat)
    (hne : listing ≠ []) (fetchOK : Bool) (parts : List (Option Bytes)) :
    (fetch_latest_sync n true listing fetchOK parts).fetchedIds
      = [specTrailing listing n]
    ∧ (∀ m : Nat, ∀ fOK : Bool, ∀ ps : List (Option Bytes),
        (fetch_latest_sync m true [] fOK ps).fetchedIds = []
        ∧ (fetch_latest_sync m true [] fOK ps).result = .ok [])
    ∧ (∀ m : Nat, ∀ fOK : Bool, ∀ ps : List (Option Bytes),
        0 < m → (fetch_latest_sync m true listing fOK ps).fetchedIds
          = [specTrailing listing m])
    ∧ (fetch_latest_sync 0 true listing fetchOK parts).fetchedIds = [listing] := by
  have hslice : ∀ m : Nat, 0 < m → pySliceLastN listing m = specTrailing listing m := by
    intro m hm
    unfold pySliceLastN specTrailing
    simp [Nat.pos_iff_ne_zero.mp hm]
  refine ⟨?_, ?_, ?_, ?_⟩
  · cases fetchOK <;> simp [fetch_latest_sync, hne, hslice n hn]
  · intro m fOK ps
    cases fOK <;> simp [fetch_latest_sync]
  · intro m fOK ps hm
    cases fOK <;> simp [fetch_latest_sync, hne, hslice m hm]
  · cases fetchOK <;> simp [fetch_latest_sync, pySliceLastN, hne]

/-- C3 witness for the amended theorem at concrete inputs. -/
theorem C3_witness :
    1 ≤ 2 ∧ ([5, 6, 7] : List Nat) ≠ []
    ∧ (fetch_latest_sync 2 true [5, 6, 7] true []).fetchedIds
        = [specTrailing [5, 6, 7] 2] :=
  ⟨by decide, by decide, (C3_amended 2 (by decide) [5, 6, 7] (by decide) true []).1⟩

/-- C8: close() is idempotent — a second close on the already-cleared
session is a no-op that raises nothing and issues no LOGOUT, whatever the
first call did; and a close on an open connection issues one LOGOUT and
releases the connection. -/
theorem C8_close_idempotent (st : Option Nat) (c : Nat) (b1 b2 : Bool) :
    logout_sync (logout_sync st b1).1 b2 = (none, false, 0)
    ∧ (logout_sync (some c) b1).1 = none
    ∧ (logout_sync (some c) b1).2.2 = 1 := by
  cases st <;> simp [logout_sync]

/-- C10: after close() on any session state the connection field is
cleared on every exit path, and when the LOGOUT command itself raises the
exception still propagates while the field is already cleared, leaving
the session terminally disconnected. -/
theorem C10_connection_cleared (st : Option Nat) (b : Bool) (c : Nat) :
    (logout_sync st b).1 = none ∧ (logout_sync (some c) true).2.1 = true := by
  cases st <;> simp [logout_sync]

/-! ## Theorems: message decoding (C4, C5, C6, C7) -/

/-- A single walk() loop step never changes the header fields of the
accumulated record. -/
theorem partStep_preserves (acc : Parsed) (part : MimePart) (p : Parsed)
    (h : partStep acc part = .ok p) :
    p.subject = acc.subject ∧ p.fromF = acc.fromF ∧ p.toF = acc.toF
      ∧ p.date = acc.date := by
  simp only [partStep] at h
  split_ifs at h <;>
    first
      | (cases hp : part.payload <;> rw [hp] at h <;> simp_all <;> simp [← h])
      | (cases hf : decode_mime part.filename <;> rw [hf] at h <;>
          simp_all <;> simp [← h])
      | simp_all

/-- The walk() loop never changes the header fields of the record it
starts from. -/
theorem walkParts_preserves (parts : List MimePart) (init p : Parsed)
    (h : walkParts parts init = .ok p) :
    p.subject = init.subject ∧ p.fromF = init.fromF ∧ p.toF = init.toF
      ∧ p.date = init.date := by
  induction parts generalizing init with
  | nil =>
    unfold walkParts at h
    cases h
    exact ⟨rfl, rfl, rfl, rfl⟩
  | cons part rest ih =>
    unfold walkParts at h
    cases hs : partStep init part with
    | error e => rw [hs] at h; exact absurd h (by simp)
    | ok acc2 =>
      rw [hs] at h
      obtain ⟨a1, a2, a3, a4⟩ := partStep_preserves init part acc2 hs
      obtain ⟨b1, b2, b3, b4⟩ := ih acc2 h
      exact ⟨b1.trans a1, b2.trans a2, b3.trans a3, b4.trans a4⟩

/-- C5 counterexample: the claim says the date field is a string that is
empty when the Date header is absent, but parsing a message with no
headers yields date = None, not the empty string (the source reads
msg.get("Date") with no default and no decoding). -/
theorem C5_counterexample :
    (parse ⟨none, none, none, none, []⟩).map Parsed.date = .ok none
    ∧ (Except.ok (none : Option PyStr) : Except Unit (Option PyStr))
        ≠ .ok (some []) := by
  exact ⟨rfl, by simp⟩

/-- C5 amended: subject, from and to are always strings and are empty
when the corresponding header is absent, but date is the raw header
value, passed through undecoded and None — not an empty string — when
the Date header is absent. -/
theorem C5_amended (msg : PyMessage) (p : Parsed) (h : parse msg = .ok p) :
    p.date = msg.dateH
    ∧ (msg.subject = none → p.subject = [])
    ∧ (msg.fromH = none → p.fromF = [])
    ∧ (msg.toH = none → p.toF = []) := by
  unfold parse at h
  cases h1 : decode_mime msg.subject with
  | error e => rw [h1] at h; exact absurd h (by simp)
  | ok sv =>
    cases h2 : decode_mime msg.fromH with
    | error e => rw [h1, h2] at h; exact absurd h (by simp)
    | ok fv =>
      cases h3 : decode_mime msg.toH with
      | error e => rw [h1, h2, h3] at h; exact absurd h (by simp)
      | ok tv =>
        rw [h1, h2, h3] at h
        obtain ⟨hs, hf, ht, hd⟩ := walkParts_preserves msg.parts _ p h
        refine ⟨hd, ?_, ?_, ?_⟩
        · intro hn
          rw [hn] at h1
          have : sv = [] := by
            have := h1.symm.trans (rfl : decode_mime none = .ok [])
            exact (Except.ok.injEq _ _ ▸ this).symm ▸ rfl
          rw [hs, this]
        · intro hn
          rw [hn] at h2
          have : fv = [] := by
            have := h2.symm.trans (rfl : decode_mime none = .ok [])
            exact (Except.ok.injEq _ _ ▸ this).symm ▸ rfl
          rw [hf, this]
        · intro hn
          rw [hn] at h3
          have : tv = [] := by
            have := h3.symm.trans (rfl : decode_mime none = .ok [])
            exact (Except.ok.injEq _ _ ▸ this).symm ▸ rfl
          rw [ht, this]

/-- C5 witness for the amended theorem at a concrete headerless input. -/
theorem C5_witness :
    parse ⟨none, none, none, none, []⟩ = .ok ⟨[], [], [], none, [], [], []⟩
    ∧ (⟨[], [], [], none, [], [], []⟩ : Parsed).date = none :=
  ⟨rfl, (C5_amended ⟨none, none, none, none, []⟩ ⟨[], [], [], none, [], [], []⟩
      rfl).1⟩

/-- C4 counterexample: the claim says a non-attachment text/plain part is
decoded with its declared charset, but a part declaring iso-8859-1 whose
payload is the single byte 0xE9 contributes the empty string — the code
decodes every body part with the hardcoded "utf-8", under which the lone
byte 0xE9 is invalid and ignored — while the declared charset decodes it
to the code point 0xE9. -/
theorem C4_counterexample :
    (parse ⟨none, none, none, none,
        [⟨"text/plain", none, some (pyS "iso-8859-1"), none, some [0xE9]⟩]⟩).map
      Parsed.text = .ok []
    ∧ latin1Decode [0xE9] = [0xE9]
    ∧ ([] : PyStr) ≠ [0xE9] := by
  exact ⟨rfl, rfl, by decide⟩

/-- C4 amended: a non-attachment text/plain (resp. text/html) leaf part
with a present payload has the payload decoded as UTF-8 with undecodable
byte sequences ignored — regardless of the declared charset, which the
code never consults — and the result appended to the accumulated plain
text (resp. HTML) body. -/
theorem C4_amended (acc : Parsed) (part : MimePart) (bs : Bytes)
    (hct : part.contentType = "text/plain")
    (hd : attachInDisp (dispStr part.disposition) = false)
    (hp : part.payload = some bs) :
    partStep acc part = .ok { acc with text := acc.text ++ utf8DecodeIgnore bs }
    ∧ (∀ cs, partStep acc { part with charset := cs } = partStep acc part)
    ∧ (∀ accH : Parsed, ∀ partH : MimePart, ∀ bsH : Bytes,
        partH.contentType = "text/html" →
        attachInDisp (dispStr partH.disposition) = false →
        partH.payload = some bsH →
        partStep accH partH
          = .ok { accH with html := accH.html ++ utf8DecodeIgnore bsH }) := by
  refine ⟨?_, ?_, ?_⟩
  · simp [partStep, hct, hd, hp]
  · intro cs
    simp [partStep]
  · intro accH partH bsH hct2 hd2 hp2
    have hne : partH.contentType ≠ "text/plain" := by rw [hct2]; decide
    simp [partStep, hct2, hd2, hp2, hne]

/-- C4 witness for the amended theorem at a concrete inline text part. -/
theorem C4_witness :
    attachInDisp (dispStr (none : Option String)) = false
    ∧ partStep ⟨[], [], [], none, [], [], []⟩
        ⟨"text/plain", none, none, none, some (pyS "Hello")⟩
      = .ok { (⟨[], [], [], none, [], [], []⟩ : Parsed) with
          text := ([] : PyStr) ++ utf8DecodeIgnore (pyS "Hello") } :=
  ⟨by decide, (C4_amended ⟨[], [], [], none, [], [], []⟩
      ⟨"text/plain", none, none, none, some (pyS "Hello")⟩ (pyS "Hello")
      rfl (by decide) rfl).1⟩

/-- C6 (code bug): a message whose Subject header is the single encoded
word =?x-unknown?b?aGVsbG8=?= parses into a MIME tree, yet decoding
raises instead of degrading gracefully: decode_header hands the decoder
the unregistered charset name x-unknown, and bytes.decode raises
LookupError for an unknown codec even with errors="ignore", which only
covers undecodable byte sequences.  The claim that decode never raises on
such input matches the intent of errors="ignore" but not the code. -/
theorem C6_lookup_error :
    parse ⟨some (encodeWord (pyS "x-unknown") (pyS "hello")),
        none, none, none, []⟩ = .error ()
    ∧ decode_mime (some (encodeWord (pyS "x-unknown") (pyS "hello")))
        = .error () := by
  exact ⟨rfl, rfl⟩

/-- C7 counterexample: the claim says an attachment with no filename gets
the default filename "attachment", but the code passes get_filename() =
None through decode_mime, which returns the empty string: the recorded
filename is "" and the "attachment" default exists only in the rendering
layer. -/
theorem C7_counterexample :
    (parse ⟨none, none, none, none,
        [⟨"application/pdf", some "attachment", none, none, some (pyS "xyz")⟩]⟩).map
      (fun p => p.attachments.map Attachment.filename) = .ok [[]]
    ∧ ([] : PyStr) ≠ pyS "attachment" := by
  exact ⟨rfl, by decide⟩

/-- C7 amended: a part whose disposition is attachment records one
Attachment whose filename is the encoded-word-decoded filename of the
part — the empty string, not "attachment", when the part carries no
filename — whose size_kb is round(len(bytes) / 1024, 2) and whose content
is the fully decoded payload bytes (b"" when the payload is absent). -/
theorem C7_amended (acc : Parsed) (part : MimePart) (fn : PyStr)
    (hd : dispStr part.disposition = "attachment")
    (hfn : decode_mime part.filename = .ok fn) :
    partStep acc part = .ok { acc with attachments := acc.attachments ++
        [⟨fn, (pyRound2c (part.payload.getD []).length : ℚ) / 100,
          part.payload.getD []⟩] }
    ∧ (part.filename = none → fn = []) := by
  constructor
  · have ha : attachInDisp "attachment" = true := by decide
    simp [partStep, hd, ha, hfn]
  · intro hn
    rw [hn] at hfn
    have := hfn.symm.trans (rfl : decode_mime none = .ok [])
    exact ((Except.ok.injEq _ _ ▸ this).symm ▸ rfl)

/-- C7 witness for the amended theorem at a concrete filename-less
attachment. -/
theorem C7_witness :
    dispStr (some "attachment") = "attachment"
    ∧ partStep ⟨[], [], [], none, [], [], []⟩
        ⟨"application/pdf", some "attachment", none, none, some (pyS "xyz")⟩
      = .ok { (⟨[], [], [], none, [], [], []⟩ : Parsed) with
          attachments := ([] : List Attachment) ++
            [⟨[], (pyRound2c ((some (pyS "xyz")).getD []).length : ℚ) / 100,
              (some (pyS "xyz")).getD []⟩] } :=
  ⟨rfl, (C7_amended ⟨[], [], [], none, [], [], []⟩
      ⟨"application/pdf", some "attachment", none, none, some (pyS "xyz")⟩ []
      rfl rfl).1⟩

/-! ## Theorems: encoded-word round trip (C9) -/

/-- The base64 alphabet avoids the padding character. -/
theorem b64Char_ne_61 (n : Nat) : b64Char n ≠ 61 := by
  unfold b64Char
  split_ifs <;> omega

/-- The base64 alphabet avoids the question mark. -/
theorem b64Char_ne_63 (n : Nat) : b64Char n ≠ 63 := by
  unfold b64Char
  split_ifs <;> omega

/-- Alphabet lookup inverts the alphabet character map on 6-bit values. -/
theorem b64Index_b64Char : ∀ n < 64, b64Index (b64Char n) = some n := by
  decide

/-- Base64 text never contains a question mark. -/
theorem b64encode_no_63 (bs : Bytes) : 63 ∉ b64encodeBytes bs := by
  induction bs using b64encodeBytes.induct with
  | case1 b1 b2 b3 rest ih =>
    simp only [b64encodeBytes, List.mem_cons]
    push_neg
    exact ⟨(b64Char_ne_63 _).symm, (b64Char_ne_63 _).symm, (b64Char_ne_63 _).symm,
      (b64Char_ne_63 _).symm, ih⟩
  | case2 b1 b2 =>
    simp only [b64encodeBytes, List.mem_cons]
    push_neg
    refine ⟨(b64Char_ne_63 _).symm, (b64Char_ne_63 _).symm, (b64Char_ne_63 _).symm, ?_⟩
    simp
  | case3 b1 =>
    simp only [b64encodeBytes, List.mem_cons]
    push_neg
    refine ⟨(b64Char_ne_63 _).symm, (b64Char_ne_63 _).symm, ?_⟩
    simp
  | case4 => simp [b64encodeBytes]

/-- Base64 decoding inverts base64 encoding on byte lists. -/
theorem b64_roundtrip (bs : Bytes) (h : ∀ b ∈ bs, b < 256) :
    b64decodeStr (b64encodeBytes bs) = bs := by
  induction bs using b64encodeBytes.induct with
  | case1 b1 b2 b3 rest ih =>
    have h1 : b1 < 256 := h b1 (by simp)
    have h2 : b2 < 256 := h b2 (by simp)
    have h3 : b3 < 256 := h b3 (by simp)
    have hrest : ∀ b ∈ rest, b < 256 := fun b hb => h b (by simp [hb])
    simp only [b64encodeBytes, b64decodeStr]
    rw [b64Index_b64Char _ (by omega), b64Index_b64Char _ (by omega)]
    simp only
    rw [if_neg (b64Char_ne_61 _)]
    rw [b64Index_b64Char _ (by omega)]
    simp only
    rw [if_neg (b64Char_ne_61 _)]
    rw [b64Index_b64Char _ (by omega)]
    simp only
    rw [ih hrest]
    simp only [List.cons.injEq, and_true]
    omega
  | case2 b1 b2 =>
    have h1 : b1 < 256 := h b1 (by simp)
    have h2 : b2 < 256 := h b2 (by simp)
    simp only [b64encodeBytes, b64decodeStr]
    rw [b64Index_b64Char _ (by omega), b64Index_b64Char _ (by omega)]
    simp only
    rw [if_neg (b64Char_ne_61 _)]
    rw [b64Index_b64Char _ (by omega)]
    simp only
    rw [if_pos trivial]
    simp only [List.cons.injEq, and_true]
    omega
  | case3 b1 =>
    have h1 : b1 < 256 := h b1 (by simp)
    simp only [b64encodeBytes, b64decodeStr]
    rw [b64Index_b64Char _ (by omega), b64Index_b64Char _ (by omega)]
    simp only
    rw [if_pos trivial]
    simp only [List.cons.injEq, and_true]
    omega
  | case4 => rfl

/-- A separator-free string splits into a single segment. -/
theorem splitQ_no_sep (a : PyStr) (h : 63 ∉ a) : splitQ a = [a] := by
  induction a with
  | nil => rfl
  | cons c rest ih =>
    simp only [List.mem_cons, not_or] at h
    unfold splitQ
    rw [if_neg (Ne.symm h.1), ih h.2]

/-- Splitting past one separator peels off the separator-free head. -/
theorem splitQ_append_sep (a l : PyStr) (h : 63 ∉ a) :
    splitQ (a ++ 63 :: l) = a :: splitQ l := by
  induction a with
  | nil =>
    simp only [List.nil_append]
    rw [splitQ, if_pos rfl]
  | cons c rest ih =>
    simp only [List.mem_cons, not_or] at h
    simp only [List.cons_append]
    rw [splitQ, if_neg (Ne.symm h.1), ih h.2]

/-- UTF-8 encoding of a valid scalar value takes one to four bytes. -/
theorem utf8EncodeChar_len_pos (c : Nat) : 1 ≤ (utf8EncodeChar c).length := by
  unfold utf8EncodeChar
  split_ifs <;> simp

/-- UTF-8 encoding produces genuine bytes. -/
theorem utf8EncodeChar_lt_256 (c : Nat) (hc : ValidScalar c) :
    ∀ b ∈ utf8EncodeChar c, b < 256 := by
  obtain ⟨h1, h2⟩ := hc
  intro b hb
  unfold utf8EncodeChar at hb
  split_ifs at hb <;> simp only [List.mem_cons, List.not_mem_nil, or_false] at hb <;>
    rcases hb with hb | hb | hb | hb <;> omega

/-- Decoding one UTF-8 step on an encoded valid scalar recovers the
scalar and consumes exactly its encoding. -/
theorem utf8Step_encodeChar (c : Nat) (hc : ValidScalar c) (rest : Bytes) :
    utf8Step (utf8EncodeChar c ++ rest) = (some c, (utf8EncodeChar c).length) := by
  obtain ⟨h1, h2⟩ := hc
  by_cases ha : c < 0x80
  · simp only [utf8EncodeChar, if_pos ha, List.cons_append, List.nil_append,
      List.length_cons, List.length_nil]
    unfold utf8Step
    simp only
    rw [if_pos ha]
  · by_cases hb : c < 0x800
    · simp only [utf8EncodeChar, if_neg ha, if_pos hb, List.cons_append,
        List.nil_append, List.length_cons, List.length_nil]
      unfold utf8Step
      simp only
      have e1 : ¬ (0xC0 + c / 64 < 0x80) := by omega
      have e2 : ¬ (0xC0 + c / 64 < 0xC2) := by omega
      have e3 : 0xC0 + c / 64 < 0xE0 := by omega
      have e4 : isCont (0x80 + c % 64) = true := by simp [isCont]; omega
      rw [if_neg e1, if_neg e2, if_pos e3]
      simp only [e4, if_pos]
      simp only [Prod.mk.injEq, Option.some.injEq]
      exact ⟨by omega, trivial⟩
    · by_cases hcc : c < 0x10000
      · simp only [utf8EncodeChar, if_neg ha, if_neg hb, if_pos hcc,
          List.cons_append, List.nil_append, List.length_cons, List.length_nil]
        unfold utf8Step
        simp only
        have e1 : ¬ (0xE0 + c / 4096 < 0x80) := by omega
        have e2 : ¬ (0xE0 + c / 4096 < 0xC2) := by omega
        have e3 : ¬ (0xE0 + c / 4096 < 0xE0) := by omega
        have e4 : 0xE0 + c / 4096 < 0xF0 := by omega
        have e5 : isCont (0x80 + c / 64 % 64) = true := by simp [isCont]; omega
        have e6 : isCont (0x80 + c % 64) = true := by simp [isCont]; omega
        rw [if_neg e1, if_neg e2, if_neg e3, if_pos e4]
        simp only [e5, e6, and_self, if_pos]
        have ecp : (0xE0 + c / 4096 - 0xE0) * 4096 + (0x80 + c / 64 % 64 - 0x80) * 64
            + (0x80 + c % 64 - 0x80) = c := by omega
        rw [if_neg]
        · simp only [Prod.mk.injEq, Option.some.injEq]
          exact ⟨by omega, trivial⟩
        · rw [ecp]
          push_neg
          exact ⟨by omega, fun hs => by omega⟩
      · simp only [utf8EncodeChar, if_neg ha, if_neg hb, if_neg hcc,
          List.cons_append, List.nil_append, List.length_cons, List.length_nil]
        unfold utf8Step
        simp only
        have e1 : ¬ (0xF0 + c / 262144 < 0x80) := by omega
        have e2 : ¬ (0xF0 + c / 262144 < 0xC2) := by omega
        have e3 : ¬ (0xF0 + c / 262144 < 0xE0) := by omega
        have e4 : ¬ (0xF0 + c / 262144 < 0xF0) := by omega
        have e5 : 0xF0 + c / 262144 < 0xF5 := by omega
        have e6 : isCont (0x80 + c / 4096 % 64) = true := by simp [isCont]; omega
        have e7 : isCont (0x80 + c / 64 % 64) = true := by simp [isCont]; omega
        have e8 : isCont (0x80 + c % 64) = true := by simp [isCont]; omega
        rw [if_neg e1, if_neg e2, if_neg e3, if_neg e4, if_pos e5]
        simp only [e6, e7, e8, and_self, if_pos]
        have ecp : (0xF0 + c / 262144 - 0xF0) * 262144 + (0x80 + c / 4096 % 64 - 0x80) * 4096
            + (0x80 + c / 64 % 64 - 0x80) * 64 + (0x80 + c % 64 - 0x80) = c := by omega
        rw [if_neg]
        · simp only [Prod.mk.injEq, Option.some.injEq]
          exact ⟨by omega, trivial⟩
        · rw [ecp]
          push_neg
          exact ⟨by omega, by omega⟩

/-- The fuelled decoder recovers an encoded string whenever the fuel
covers the encoding length. -/
theorem utf8DecodeLoop_encode (s : PyStr) (h : ∀ c ∈ s, ValidScalar c) :
    ∀ fuel, (utf8Encode s).length ≤ fuel → utf8DecodeLoop fuel (utf8Encode s) = s := by
  induction s with
  | nil =>
    intro fuel hf
    cases fuel <;> rfl
  | cons c cs ih =>
    intro fuel hf
    have hc : ValidScalar c := h c (by simp)
    have hcs : ∀ x ∈ cs, ValidScalar x := fun x hx => h x (by simp [hx])
    have henc : utf8Encode (c :: cs) = utf8EncodeChar c ++ utf8Encode cs := by
      simp [utf8Encode]
    have hlen1 := utf8EncodeChar_len_pos c
    rw [henc] at hf ⊢
    have hne : utf8EncodeChar c ++ utf8Encode cs ≠ [] := by
      intro habs
      rw [List.append_eq_nil] at habs
      rw [habs.1] at hlen1
      simp at hlen1
    cases fuel with
    | zero =>
      exfalso
      rw [List.length_append] at hf
      omega
    | succ f =>
      rw [utf8DecodeLoop, if_neg hne, utf8Step_encodeChar c hc (utf8Encode cs)]
      simp only
      have hmax : max (utf8EncodeChar c).length 1 = (utf8EncodeChar c).length := by
        omega
      rw [hmax, List.drop_left]
      have hfuel : (utf8Encode cs).length ≤ f := by
        rw [List.length_append] at hf
        omega
      rw [ih hcs f hfuel]

/-- Decoding with errors ignored inverts UTF-8 encoding on strings of
valid scalar values. -/
theorem utf8_roundtrip (s : PyStr) (h : ∀ c ∈ s, ValidScalar c) :
    utf8DecodeIgnore (utf8Encode s) = s := by
  unfold utf8DecodeIgnore
  exact utf8DecodeLoop_encode s h _ le_rfl

/-- decode_header recognises an encoded word built from a
question-mark-free charset name and base64 bytes, base64-decodes its
payload and hands back the declared charset. -/
theorem decode_header_encodeWord (cs : PyStr) (bs : Bytes)
    (hcs : 63 ∉ cs) (hbs : ∀ b ∈ bs, b < 256) :
    decode_header (encodeWord cs bs) = [.enc bs (some cs)] := by
  have hshape : encodeWord cs bs
      = [61] ++ 63 :: (cs ++ 63 :: ([98] ++ 63 :: (b64encodeBytes bs ++ 63 :: [61]))) := by
    simp [encodeWord, pyS]
  have hsplit : splitQ (encodeWord cs bs)
      = [[61], cs, [98], b64encodeBytes bs, [61]] := by
    rw [hshape]
    rw [splitQ_append_sep [61] _ (by decide)]
    rw [splitQ_append_sep cs _ hcs]
    rw [splitQ_append_sep [98] _ (by decide)]
    rw [splitQ_append_sep (b64encodeBytes bs) _ (b64encode_no_63 bs)]
    rfl
  unfold decode_header
  rw [hsplit]
  simp only
  rw [if_pos (Or.inl (by decide))]
  rw [b64_roundtrip bs hbs]

/-- C9: encoding a filename as a B encoded word and decoding it through
the header-decode routine yields the original Unicode string, both for
UTF-8 on any string of valid scalar values and for ISO-8859-1 on any
string representable in that charset (all code points below 256). -/
theorem C9_roundtrip (s : PyStr) (hs : ∀ c ∈ s, ValidScalar c)
    (t : PyStr) (ht : ∀ c ∈ t, c < 256) :
    decode_mime (some (encodeWord (pyS "utf-8") (utf8Encode s))) = .ok s
    ∧ decode_mime (some (encodeWord (pyS "iso-8859-1") (latin1Encode t)))
        = .ok t := by
  constructor
  · have hb : ∀ b ∈ utf8Encode s, b < 256 := by
      intro b hbm
      simp only [utf8Encode, List.mem_flatten, List.mem_map] at hbm
      obtain ⟨l, ⟨c, hc, rfl⟩, hbl⟩ := hbm
      exact utf8EncodeChar_lt_256 c (hs c hc) b hbl
    have hne : encodeWord (pyS "utf-8") (utf8Encode s) ≠ [] := by
      simp [encodeWord, pyS]
    unfold decode_mime
    simp only
    rw [if_neg hne]
    rw [decode_header_encodeWord _ _ (by decide) hb]
    unfold decodeSegs
    simp only
    have hcs : charsetOrUTF8 (some (pyS "utf-8")) = pyS "utf-8" := by decide
    rw [hcs]
    have hreg : bytesDecodeIgnore (pyS "utf-8") (utf8Encode s)
        = some (utf8DecodeIgnore (utf8Encode s)) := by
      unfold bytesDecodeIgnore
      rw [if_pos rfl]
    rw [hreg, utf8_roundtrip s hs]
    simp [decodeSegs]
  · have hne : encodeWord (pyS "iso-8859-1") (latin1Encode t) ≠ [] := by
      simp [encodeWord, pyS]
    have hb : ∀ b ∈ latin1Encode t, b < 256 := ht
    unfold decode_mime
    simp only
    rw [if_neg hne]
    rw [decode_header_encodeWord _ _ (by decide) hb]
    unfold decodeSegs
    simp only
    have hcs : charsetOrUTF8 (some (pyS "iso-8859-1")) = pyS "iso-8859-1" := by
      decide
    rw [hcs]
    have hreg : bytesDecodeIgnore (pyS "iso-8859-1") (latin1Encode t)
        = some (latin1Decode (latin1Encode t)) := by
      unfold bytesDecodeIgnore
      rw [if_neg (by decide), if_pos (Or.inl rfl)]
    rw [hreg]
    simp [decodeSegs, latin1Decode, latin1Encode]

/-- C9 witness for the round trip at concrete filenames. -/
theorem C9_witness :
    (∀ c ∈ pyS "héllo", ValidScalar c) ∧ (∀ c ∈ pyS "café", c < 256)
    ∧ decode_mime (some (encodeWord (pyS "utf-8") (utf8Encode (pyS "héllo"))))
        = .ok (pyS "héllo")
    ∧ decode_mime (some (encodeWord (pyS "iso-8859-1")
        (latin1Encode (pyS "café")))) = .ok (pyS "café") := by
  refine ⟨by decide, by decide, ?_, ?_⟩
  · exact (C9_roundtrip (pyS "héllo") (by decide) (pyS "café") (by decide)).1
  · exact (C9_roundtrip (pyS "héllo") (by decide) (pyS "café") (by decide)).2
